import Mathlib

/-!
Verification of the node-candidate database layer
(`cmd/observer/database/db_sqlite.go`) of the erigon p2p crawler.

The SQLite-backed store is shallowly embedded: the `nodes` table becomes an
association list of `NodeRecord`s keyed by node id (list order models SQLite
row order), each SQL statement of `db_sqlite.go` becomes a Lean function on
that list, and Unix timestamps (`time.Time.Unix()`) become `Int` seconds.
Go `time.Duration` arguments are modelled in the same `Int` seconds unit, and
each operation that calls `time.Now()` takes the current time `now : Int`
explicitly.  `net.IP` values are modelled by their textual form (`Option`:
`none` for a nil IP), so `net.IP.String` / `net.ParseIP` on stored values is
the identity.  TEXT column values that the code splits and joins are modelled
as `List Char`.
-/

namespace Observer

/-- Node identifier (Go `type NodeID string`). -/
abbrev NodeID := String

/-- One stack of `NodeAddr` (Go `NodeAddr1`): an optional IP literal plus
discovery and RLPx ports (`uint16`; `0` means "no port"). -/
structure NodeAddr1 where
  IP : Option String
  PortDisc : Nat
  PortRLPx : Nat
  deriving Repr, DecidableEq

/-- Go `NodeAddr`: an embedded IPv4 `NodeAddr1` (called `base` here) plus an
`IPv6` stack. -/
structure NodeAddr where
  base : NodeAddr1
  IPv6 : NodeAddr1
  deriving Repr, DecidableEq

/-- Result triple of `FindHandshakeLastTry` (Go `HandshakeTry`, constructed in
`db_sqlite.go` as `HandshakeTry{handshakeErr.Valid, uint(tryNum.Int32),
time.Unix(updatedTimestamp.Int64, 0)}`). -/
structure HandshakeTry where
  hasErr : Bool
  tries : Nat
  time : Int
  deriving Repr, DecidableEq

/-- One row of the `nodes` table (see `sqlCreateSchema`).  Nullable columns are
`Option`; `ping_try` and `handshake_try` are `INTEGER NOT NULL DEFAULT 0`. -/
structure NodeRecord where
  ip : Option String
  port_disc : Option Nat
  port_rlpx : Option Nat
  ip_v6 : Option String
  ip_v6_port_disc : Option Nat
  ip_v6_port_rlpx : Option Nat
  addr_updated : Int
  ping_try : Nat
  compat_fork : Option Bool
  compat_fork_updated : Option Int
  client_id : Option String
  handshake_err : Option String
  handshake_try : Nat
  handshake_updated : Option Int
  neighbor_keys : Option (List Char)
  taken_last : Option Int
  deriving Repr, DecidableEq

/-- The `nodes` table: rows in SQLite row order, keyed by the `id` PRIMARY KEY
column (kept as the first component). -/
abbrev Store := List (NodeID × NodeRecord)

/-- `SELECT ... FROM nodes WHERE id = ?` via `QueryRowContext`: the first row
whose id matches, if any. -/
def findRow (id : NodeID) : Store → Option NodeRecord
  | [] => none
  | e :: t => if e.1 = id then some e.2 else findRow id t

/-- `UPDATE nodes SET ... WHERE id IN (...)`: apply `f` to every row whose id
is in `ids`, leave all other rows untouched.  `UPDATE ... WHERE id = ?` is the
special case `ids = [id]`.  A SQL UPDATE matching zero rows succeeds, so this
is a total function. -/
def updateNodes (ids : List NodeID) (f : NodeRecord → NodeRecord) : Store → Store
  | [] => []
  | e :: t => (if e.1 ∈ ids then (e.1, f e.2) else e) :: updateNodes ids f t

theorem findRow_updateNodes_self (id : NodeID) (f : NodeRecord → NodeRecord) (st : Store) :
    findRow id (updateNodes [id] f st) = (findRow id st).map f := by
  induction st with
  | nil => rfl
  | cons e t ih =>
    by_cases h : e.1 = id
    · simp [findRow, updateNodes, h]
    · simp [findRow, updateNodes, h, ih]

theorem updateNodes_of_notFound {id : NodeID} {st : Store} (f : NodeRecord → NodeRecord)
    (h : findRow id st = none) : updateNodes [id] f st = st := by
  induction st with
  | nil => rfl
  | cons e t ih =>
    by_cases he : e.1 = id
    · simp [findRow, he] at h
    · simp [findRow, he] at h
      simp [updateNodes, he, ih h]

theorem mem_updateNodes {e' : NodeID × NodeRecord} {ids : List NodeID}
    {f : NodeRecord → NodeRecord} {st : Store} (h : e' ∈ updateNodes ids f st) :
    ∃ e0 ∈ st, e' = if e0.1 ∈ ids then (e0.1, f e0.2) else e0 := by
  induction st with
  | nil => simp [updateNodes] at h
  | cons e t ih =>
    simp only [updateNodes, List.mem_cons] at h
    rcases h with h | h
    · exact ⟨e, List.mem_cons_self e t, h⟩
    · obtain ⟨e0, he0, hval⟩ := ih h
      exact ⟨e0, List.mem_cons_of_mem e he0, hval⟩

theorem mem_updateNodes_key {id : NodeID} {r' : NodeRecord} {ids : List NodeID}
    {f : NodeRecord → NodeRecord} {st : Store} (h : (id, r') ∈ updateNodes ids f st)
    (hid : id ∈ ids) : ∃ r0, (id, r0) ∈ st ∧ r' = f r0 := by
  obtain ⟨e0, he0, hval⟩ := mem_updateNodes h
  by_cases hin : e0.1 ∈ ids
  · simp only [hin, if_pos] at hval
    have h1 : e0.1 = id := by
      have := congrArg Prod.fst hval
      simpa using this.symm
    refine ⟨e0.2, ?_, ?_⟩
    · rw [← h1]; exact he0
    · have := congrArg Prod.snd hval
      simpa using this
  · simp only [hin, if_neg, not_false_iff] at hval
    have h1 : e0.1 = id := by
      have := congrArg Prod.fst hval
      simpa using this.symm
    rw [h1] at hin
    exact absurd hid hin

theorem findRow_append_of_notFound {id : NodeID} {st : Store} (l : Store)
    (h : findRow id st = none) : findRow id (st ++ l) = findRow id l := by
  induction st with
  | nil => rfl
  | cons e t ih =>
    by_cases he : e.1 = id
    · simp [findRow, he] at h
    · simp [findRow, he] at h ⊢
      exact ih h

/-- SQLite `ORDER BY <integer column> ASC`: NULL values sort before all
integers. -/
def optIntLe : Option Int → Option Int → Prop
  | none, _ => True
  | some _, none => False
  | some a, some b => a ≤ b

instance : DecidableRel optIntLe := fun a b =>
  match a, b with
  | none, _ => isTrue trivial
  | some _, none => isFalse id
  | some x, some y => inferInstanceAs (Decidable (x ≤ y))

theorem optIntLe_total (a b : Option Int) : optIntLe a b ∨ optIntLe b a := by
  cases a <;> cases b <;> simp [optIntLe]
  exact Int.le_total _ _

theorem optIntLe_trans {a b c : Option Int} (h1 : optIntLe a b) (h2 : optIntLe b c) :
    optIntLe a c := by
  cases a <;> cases b <;> cases c <;> simp_all [optIntLe]
  omega

/-- Row ordering induced by `ORDER BY` on the (nullable) integer column
selected by `key`. -/
def rowLe (key : NodeRecord → Option Int) (a b : NodeID × NodeRecord) : Prop :=
  optIntLe (key a.2) (key b.2)

instance (key : NodeRecord → Option Int) : DecidableRel (rowLe key) := fun a b =>
  inferInstanceAs (Decidable (optIntLe (key a.2) (key b.2)))

instance (key : NodeRecord → Option Int) : IsTotal (NodeID × NodeRecord) (rowLe key) :=
  ⟨fun a b => optIntLe_total (key a.2) (key b.2)⟩

instance (key : NodeRecord → Option Int) : IsTrans (NodeID × NodeRecord) (rowLe key) :=
  ⟨fun _ _ _ h1 h2 => optIntLe_trans h1 h2⟩

/-- `SELECT id FROM nodes WHERE <p> ORDER BY <key> LIMIT <limit>`: the rows
satisfying the WHERE predicate, ordered ascending on `key` (NULLs first),
capped at `limit`.  (SQL leaves the relative order of ties unspecified; a
stable sort fixes one legal order.) -/
def selectRows (p : NodeID × NodeRecord → Bool) (key : NodeRecord → Option Int)
    (limit : Nat) (st : Store) : Store :=
  (List.insertionSort (rowLe key) (st.filter p)).take limit

theorem length_selectRows_le (p : NodeID × NodeRecord → Bool) (key : NodeRecord → Option Int)
    (limit : Nat) (st : Store) : (selectRows p key limit st).length ≤ limit := by
  unfold selectRows
  exact (List.length_take _ _).trans_le (min_le_left _ _)

theorem sorted_selectRows (p : NodeID × NodeRecord → Bool) (key : NodeRecord → Option Int)
    (limit : Nat) (st : Store) : List.Sorted (rowLe key) (selectRows p key limit st) :=
  (List.sorted_insertionSort (rowLe key) (st.filter p)).sublist (List.take_sublist _ _)

theorem mem_selectRows {p : NodeID × NodeRecord → Bool} {key : NodeRecord → Option Int}
    {limit : Nat} {st : Store} {e : NodeID × NodeRecord}
    (h : e ∈ selectRows p key limit st) : e ∈ st ∧ p e = true := by
  unfold selectRows at h
  have h1 : e ∈ List.insertionSort (rowLe key) (st.filter p) := List.take_subset _ _ h
  rw [List.mem_insertionSort] at h1
  exact List.mem_filter.mp h1

theorem mem_selectRows_iff {p : NodeID × NodeRecord → Bool} {key : NodeRecord → Option Int}
    {limit : Nat} {st : Store} (hlim : st.length ≤ limit) (e : NodeID × NodeRecord) :
    e ∈ selectRows p key limit st ↔ e ∈ st ∧ p e = true := by
  unfold selectRows
  rw [List.take_of_length_le, List.mem_insertionSort, List.mem_filter]
  rw [List.length_insertionSort]
  exact le_trans (List.length_filter_le p st) hlim

/-- Port binding in `UpsertNodeAddr`: a port is bound (stored non-NULL) only
when its stack's IP is present and the port is non-zero
(`if (ip != nil) && (addr.PortDisc != 0) ...`). -/
def storedPort (ipPresent : Bool) (port : Nat) : Option Nat :=
  if ipPresent && !(port == 0) then some port else none

/-- The column assignments performed by `sqlUpsertNodeAddr` (both on INSERT
and on `DO UPDATE SET`): the six address columns and `addr_updated`. -/
def setNodeAddr (now : Int) (addr : NodeAddr) (r : NodeRecord) : NodeRecord :=
  { r with
    ip := addr.base.IP
    port_disc := storedPort addr.base.IP.isSome addr.base.PortDisc
    port_rlpx := storedPort addr.base.IP.isSome addr.base.PortRLPx
    ip_v6 := addr.IPv6.IP
    ip_v6_port_disc := storedPort addr.IPv6.IP.isSome addr.IPv6.PortDisc
    ip_v6_port_rlpx := storedPort addr.IPv6.IP.isSome addr.IPv6.PortRLPx
    addr_updated := now }

/-- A freshly INSERTed row: address columns from the upsert, every other
column at its schema default (`ping_try`/`handshake_try` 0, the rest NULL). -/
def newNodeRecord (now : Int) (addr : NodeAddr) : NodeRecord :=
  setNodeAddr now addr
    { ip := none, port_disc := none, port_rlpx := none, ip_v6 := none,
      ip_v6_port_disc := none, ip_v6_port_rlpx := none, addr_updated := 0,
      ping_try := 0, compat_fork := none, compat_fork_updated := none,
      client_id := none, handshake_err := none, handshake_try := 0,
      handshake_updated := none, neighbor_keys := none, taken_last := none }

/-- `UpsertNodeAddr` (`INSERT ... ON CONFLICT(id) DO UPDATE SET ...`): update
the address columns of the existing row with this id, or append a new row. -/
def UpsertNodeAddr (now : Int) (id : NodeID) (addr : NodeAddr) (st : Store) : Store :=
  if (findRow id st).isSome then updateNodes [id] (setNodeAddr now addr) st
  else st ++ [(id, newNodeRecord now addr)]

/-- The row-to-`NodeAddr` conversion in `FindNodeAddr`: NULL ports read back
as the Go zero value `0`; stored IP strings parse back to themselves (see the
module comment on the `net.IP` model). -/
def extractAddr (r : NodeRecord) : NodeAddr :=
  { base := { IP := r.ip, PortDisc := r.port_disc.getD 0, PortRLPx := r.port_rlpx.getD 0 },
    IPv6 := { IP := r.ip_v6, PortDisc := r.ip_v6_port_disc.getD 0,
              PortRLPx := r.ip_v6_port_rlpx.getD 0 } }

/-- `FindNodeAddr`: `none` models the `sql.ErrNoRows → (nil, nil)` "not
found" result. -/
def FindNodeAddr (id : NodeID) (st : Store) : Option NodeAddr :=
  (findRow id st).map extractAddr

/-- `sqlResetPingError`: `UPDATE nodes SET ping_try = 0 WHERE id = ?`. -/
def ResetPingError (id : NodeID) (st : Store) : Store :=
  updateNodes [id] (fun r => { r with ping_try := 0 }) st

/-- `sqlUpdatePingError`: `UPDATE nodes SET ping_try = nodes.ping_try + 1
WHERE id = ?` (a single atomic read-modify-write statement). -/
def UpdatePingError (id : NodeID) (st : Store) : Store :=
  updateNodes [id] (fun r => { r with ping_try := r.ping_try + 1 }) st

/-- `sqlUpdateClientID`: sets `client_id`, NULLs `handshake_err`, zeroes
`handshake_try`, refreshes `handshake_updated`. -/
def UpdateClientID (now : Int) (id : NodeID) (clientID : String) (st : Store) : Store :=
  updateNodes [id]
    (fun r => { r with client_id := some clientID, handshake_err := none,
                       handshake_try := 0, handshake_updated := some now }) st

/-- `sqlUpdateHandshakeError`: records the error tag, increments
`handshake_try`, refreshes `handshake_updated`. -/
def UpdateHandshakeError (now : Int) (id : NodeID) (handshakeErr : String) (st : Store) : Store :=
  updateNodes [id]
    (fun r => { r with handshake_err := some handshakeErr,
                       handshake_try := r.handshake_try + 1,
                       handshake_updated := some now }) st

/-- `FindHandshakeLastTry`: `none` both when no row exists and when
`handshake_updated` is NULL ("never tried to handshake"). -/
def FindHandshakeLastTry (id : NodeID) (st : Store) : Option HandshakeTry :=
  match findRow id st with
  | none => none
  | some r =>
    match r.handshake_updated with
    | none => none
    | some u => some { hasErr := r.handshake_err.isSome, tries := r.handshake_try, time := u }

/-- First conjunct of the `sqlFindHandshakeCandidates` WHERE clause:
`(handshake_updated IS NULL) OR ((handshake_updated < ?) AND (handshake_err
IS NULL)) OR ((handshake_updated < ?) AND (handshake_err IS NOT NULL))`. -/
def handshakeFreshOK (updatedOKBefore updatedErrBefore : Int)
    (handshake_updated : Option Int) (handshake_err : Option String) : Bool :=
  match handshake_updated with
  | none => true
  | some u => (decide (u < updatedOKBefore) && handshake_err.isNone)
           || (decide (u < updatedErrBefore) && handshake_err.isSome)

/-- `(compat_fork == TRUE) OR (compat_fork IS NULL)`: NULL compared with `==`
yields NULL (not selected), so only a stored TRUE or a NULL passes. -/
def compatForkOK : Option Bool → Bool
  | some b => b
  | none => true

/-- `(handshake_try <= ?) OR (handshake_err = ?)`: a NULL `handshake_err`
compared with `=` yields NULL, i.e. does not pass the right disjunct. -/
def handshakeTriesOK (maxHandshakeTries : Nat) (transientErr : String)
    (handshake_try : Nat) (handshake_err : Option String) : Bool :=
  decide (handshake_try ≤ maxHandshakeTries) || decide (handshake_err = some transientErr)

/-- Full WHERE clause of `sqlFindHandshakeCandidates`. -/
def handshakeCandidateOK (updatedOKBefore updatedErrBefore : Int) (maxHandshakeTries : Nat)
    (transientErr : String) (r : NodeRecord) : Bool :=
  handshakeFreshOK updatedOKBefore updatedErrBefore r.handshake_updated r.handshake_err
  && compatForkOK r.compat_fork
  && handshakeTriesOK maxHandshakeTries transientErr r.handshake_try r.handshake_err

/-- `FindHandshakeCandidates` as rows: computes `updatedOKBefore =
time.Now().Add(-minUnusedOKDuration).Unix()` (resp. Err) and runs
`sqlFindHandshakeCandidates` (`ORDER BY handshake_updated LIMIT ?`). -/
def FindHandshakeCandidatesRows (now minUnusedOKDuration minUnusedErrDuration : Int)
    (maxHandshakeTries : Nat) (transientErr : String) (limit : Nat) (st : Store) : Store :=
  selectRows
    (fun e => handshakeCandidateOK (now - minUnusedOKDuration) (now - minUnusedErrDuration)
        maxHandshakeTries transientErr e.2)
    (fun r => r.handshake_updated) limit st

/-- `FindHandshakeCandidates`: the ids of the selected rows. -/
def FindHandshakeCandidates (now minUnusedOKDuration minUnusedErrDuration : Int)
    (maxHandshakeTries : Nat) (transientErr : String) (limit : Nat) (st : Store) :
    List NodeID :=
  (FindHandshakeCandidatesRows now minUnusedOKDuration minUnusedErrDuration
      maxHandshakeTries transientErr limit st).map Prod.fst

/-- `sqlMarkTakenHandshakeCandidates`: `UPDATE nodes SET handshake_updated =
?, handshake_err = 'taken' WHERE id IN (...)` (no-op on an empty id list). -/
def MarkTakenHandshakeCandidates (now : Int) (ids : List NodeID) (st : Store) : Store :=
  updateNodes ids
    (fun r => { r with handshake_updated := some now, handshake_err := some "taken" }) st

/-- `sqlUpdateForkCompatibility`. -/
def UpdateForkCompatibility (now : Int) (id : NodeID) (isCompatFork : Bool) (st : Store) : Store :=
  updateNodes [id]
    (fun r => { r with compat_fork := some isCompatFork, compat_fork_updated := some now }) st

/-- `UpdateNeighborBucketKeys`: stores `strings.Join(keys, ",")`
(`List.intercalate` with separator `[',']` on the `List Char` string model). -/
def UpdateNeighborBucketKeys (id : NodeID) (keys : List (List Char)) (st : Store) : Store :=
  updateNodes [id] (fun r => { r with neighbor_keys := some (List.intercalate [','] keys) }) st

/-- `FindNeighborBucketKeys`: `none` when the row is missing or the column is
NULL; otherwise `strings.Split(keysStr, ",")` (`List.splitOn`). -/
def FindNeighborBucketKeys (id : NodeID) (st : Store) : Option (List (List Char)) :=
  (findRow id st).bind fun r => r.neighbor_keys.map (fun s => s.splitOn ',')

/-- Cooldown conjunct of the `sqlFindCandidates` WHERE clause:
`(taken_last IS NULL) OR (taken_last < ?)`. -/
def takenLastOK (takenLastBefore : Int) : Option Int → Bool
  | none => true
  | some t => decide (t < takenLastBefore)

/-- Full WHERE clause of `sqlFindCandidates`. -/
def candidateOK (takenLastBefore : Int) (maxPingTries maxHandshakeTries : Nat)
    (transientHandshakeErr : String) (r : NodeRecord) : Bool :=
  takenLastOK takenLastBefore r.taken_last
  && compatForkOK r.compat_fork
  && decide (r.ping_try ≤ maxPingTries)
  && handshakeTriesOK maxHandshakeTries transientHandshakeErr r.handshake_try r.handshake_err

/-- `FindCandidates` as rows: computes `takenLastBefore =
time.Now().Add(-minUnusedDuration).Unix()` and runs `sqlFindCandidates`
(`ORDER BY taken_last LIMIT ?`). -/
def FindCandidatesRows (now minUnusedDuration : Int) (maxPingTries maxHandshakeTries : Nat)
    (transientHandshakeErr : String) (limit : Nat) (st : Store) : Store :=
  selectRows
    (fun e => candidateOK (now - minUnusedDuration) maxPingTries maxHandshakeTries
        transientHandshakeErr e.2)
    (fun r => r.taken_last) limit st

/-- `FindCandidates`: the ids of the selected rows. -/
def FindCandidates (now minUnusedDuration : Int) (maxPingTries maxHandshakeTries : Nat)
    (transientHandshakeErr : String) (limit : Nat) (st : Store) : List NodeID :=
  (FindCandidatesRows now minUnusedDuration maxPingTries maxHandshakeTries
      transientHandshakeErr limit st).map Prod.fst

/-- `sqlMarkTakenNodes`: `UPDATE nodes SET taken_last = ? WHERE id IN (...)`
(no-op on an empty id list). -/
def MarkTakenNodes (now : Int) (ids : List NodeID) (st : Store) : Store :=
  updateNodes ids (fun r => { r with taken_last := some now }) st

/-- `TakeCandidates`, as the Go code actually executes it.  The function opens
a transaction `tx` with `db.db.BeginTx`, but then issues both the
`FindCandidates` query and the `MarkTakenNodes` UPDATE on `db.db` itself —
the shared `database/sql` pool, whose statements run on pooled connections in
autocommit mode — and never on `tx`.  The mark therefore takes durable effect
as soon as its own statement completes, independently of `tx`.  `commitFails`
models `tx.Commit()` returning an error (e.g. the caller's context was
cancelled after the mark): the call then returns an error, but the
autocommitted mark is not rolled back.  The earlier failure points
(`BeginTx`, the Find query, the Mark statement itself) return before any
write has happened and are therefore not modelled separately. -/
def TakeCandidates (now minUnusedDuration : Int) (maxPingTries maxHandshakeTries : Nat)
    (transientHandshakeErr : String) (limit : Nat) (commitFails : Bool) (st : Store) :
    Except String (List NodeID) × Store :=
  let ids := FindCandidates now minUnusedDuration maxPingTries maxHandshakeTries
      transientHandshakeErr limit st
  let st2 := MarkTakenNodes now ids st
  if commitFails then (Except.error "TakeCandidates failed to commit transaction", st2)
  else (Except.ok ids, st2)

/-- `TakeHandshakeCandidates`: same structure (and same defect) as
`TakeCandidates` — Find and Mark run on `db.db` in autocommit mode, not on
the opened transaction. -/
def TakeHandshakeCandidates (now minUnusedOKDuration minUnusedErrDuration : Int)
    (maxHandshakeTries : Nat) (transientErr : String) (limit : Nat) (commitFails : Bool)
    (st : Store) : Except String (List NodeID) × Store :=
  let ids := FindHandshakeCandidates now minUnusedOKDuration minUnusedErrDuration
      maxHandshakeTries transientErr limit st
  let st2 := MarkTakenHandshakeCandidates now ids st
  if commitFails then
    (Except.error "TakeHandshakeCandidates failed to commit transaction", st2)
  else (Except.ok ids, st2)

/-- One legal schedule of two concurrent `TakeCandidates` calls with the same
parameters: both Find queries run before either Mark statement.  This
schedule is possible because the four statements are independent autocommit
statements on separate pooled connections, while the `tx` each call opens
carries no statements (and a deferred SQLite `BEGIN` takes no lock), so
nothing orders one call's Mark before the other call's Find. -/
def TakeCandidatesRace (now minUnusedDuration : Int) (maxPingTries maxHandshakeTries : Nat)
    (transientHandshakeErr : String) (limit : Nat) (st : Store) :
    List NodeID × List NodeID × Store :=
  let ids1 := FindCandidates now minUnusedDuration maxPingTries maxHandshakeTries
      transientHandshakeErr limit st
  let ids2 := FindCandidates now minUnusedDuration maxPingTries maxHandshakeTries
      transientHandshakeErr limit st
  let st1 := MarkTakenNodes now ids1 st
  let st2 := MarkTakenNodes now ids2 st1
  (ids1, ids2, st2)

/-- Spec vocabulary: the optional timestamp is present and lies more than
`dur` before `now` ("older than `dur`"). -/
def olderThan (now dur : Int) : Option Int → Prop
  | none => False
  | some u => now - u > dur

instance (now dur : Int) : (t : Option Int) → Decidable (olderThan now dur t)
  | none => isFalse id
  | some u => inferInstanceAs (Decidable (now - u > dur))

/-- The Handshake Scheduler eligibility predicate in the words of the spec
(§4.4): never attempted, or last attempt succeeded and is older than
`minUnusedOKDuration`, or last attempt errored and is older than
`minUnusedErrDuration`; and `fork_compat` compatible or unknown; and
`handshake_try` within `maxHandshakeTries` or `handshake_err` equal to the
transient tag. -/
def handshakeEligibleSpec (now minUnusedOKDuration minUnusedErrDuration : Int)
    (maxHandshakeTries : Nat) (transientErr : String) (r : NodeRecord) : Prop :=
  (r.handshake_updated = none
    ∨ (r.handshake_err = none ∧ olderThan now minUnusedOKDuration r.handshake_updated)
    ∨ (r.handshake_err ≠ none ∧ olderThan now minUnusedErrDuration r.handshake_updated))
  ∧ (r.compat_fork = some true ∨ r.compat_fork = none)
  ∧ (r.handshake_try ≤ maxHandshakeTries ∨ r.handshake_err = some transientErr)

instance (now minOK minErr : Int) (maxTries : Nat) (terr : String) (r : NodeRecord) :
    Decidable (handshakeEligibleSpec now minOK minErr maxTries terr r) := by
  unfold handshakeEligibleSpec
  infer_instance

theorem handshakeCandidateOK_iff (now minOK minErr : Int) (maxTries : Nat) (terr : String)
    (r : NodeRecord) :
    handshakeCandidateOK (now - minOK) (now - minErr) maxTries terr r = true ↔
      handshakeEligibleSpec now minOK minErr maxTries terr r := by
  have h1 : ∀ u dur : Int, now - u > dur ↔ u < now - dur := fun u dur => by omega
  unfold handshakeCandidateOK handshakeFreshOK handshakeTriesOK compatForkOK
    handshakeEligibleSpec olderThan
  cases hu : r.handshake_updated <;> cases he : r.handshake_err <;>
    cases hc : r.compat_fork <;>
    simp_all [h1] <;>
    tauto

/-- Spec vocabulary (claim C7): the address `addr` with the ports of a stack
whose IP is absent normalized to absent (`0`). -/
def normalizePorts (a : NodeAddr1) : NodeAddr1 :=
  { IP := a.IP
    PortDisc := if a.IP.isSome then a.PortDisc else 0
    PortRLPx := if a.IP.isSome then a.PortRLPx else 0 }

/-- `addr` with both stacks' ports normalized. -/
def normalizeAddr (addr : NodeAddr) : NodeAddr :=
  { base := normalizePorts addr.base, IPv6 := normalizePorts addr.IPv6 }

/-- Store invariant maintained by every operation: a row that never recorded a
handshake attempt (`handshake_updated` NULL) still has its `handshake_try`
counter at the schema default 0.  (`handshake_try` is only changed by
`UpdateClientID`, `UpdateHandshakeError` and `MarkTakenHandshakeCandidates`,
all of which set `handshake_updated` non-NULL.) -/
def hsTryInv (st : Store) : Prop :=
  ∀ e ∈ st, e.2.handshake_updated = none → e.2.handshake_try = 0

instance (st : Store) : Decidable (hsTryInv st) := by
  unfold hsTryInv
  infer_instance

/-- A row all of whose nullable columns are NULL and whose counters are 0:
what a node looks like right after discovery (modulo address fields, which no
candidate query reads). -/
def freshNode : NodeRecord :=
  { ip := none, port_disc := none, port_rlpx := none, ip_v6 := none,
    ip_v6_port_disc := none, ip_v6_port_rlpx := none, addr_updated := 0,
    ping_try := 0, compat_fork := none, compat_fork_updated := none,
    client_id := none, handshake_err := none, handshake_try := 0,
    handshake_updated := none, neighbor_keys := none, taken_last := none }

/-- A node whose previous handshake attempt failed with a high try count:
exercises the reset behaviour of `UpdateClientID`. -/
def prevTriedNode : NodeRecord :=
  { freshNode with
    handshake_try := 99
    handshake_err := some "boom"
    handshake_updated := some 1 }

/-- A node with accumulated ping failures. -/
def ping5Node : NodeRecord :=
  { freshNode with ping_try := 5 }

/-- A node already claimed for crawl at time 40. -/
def taken40Node : NodeRecord :=
  { freshNode with taken_last := some 40 }

/-- The all-absent address. -/
def emptyAddr : NodeAddr :=
  { base := { IP := none, PortDisc := 0, PortRLPx := 0 }
    IPv6 := { IP := none, PortDisc := 0, PortRLPx := 0 } }

/-- C1: refuted — `TakeCandidates` and `TakeHandshakeCandidates` are NOT
atomic.  Both functions run their Find and Mark statements on the shared
autocommit connection pool instead of on the transaction they open, so when
the commit fails (here: `commitFails = true`, e.g. a context cancelled
mid-transaction) the call returns an error and yet the mark has durably taken
effect: the single node's `taken_last` (resp. `handshake_err` /
`handshake_updated`) is changed by the failed call. -/
theorem C1_take_marks_survive_commit_failure :
    ((TakeCandidates 100 10 3 3 "err" 1 true [("a", freshNode)]).1 =
        Except.error "TakeCandidates failed to commit transaction"
      ∧ (findRow "a" (TakeCandidates 100 10 3 3 "err" 1 true [("a", freshNode)]).2).map
          (fun r => r.taken_last) = some (some 100))
    ∧ ((TakeHandshakeCandidates 100 10 5 3 "err" 1 true [("a", freshNode)]).1 =
        Except.error "TakeHandshakeCandidates failed to commit transaction"
      ∧ (findRow "a" (TakeHandshakeCandidates 100 10 5 3 "err" 1 true
            [("a", freshNode)]).2).map
          (fun r => (r.handshake_err, r.handshake_updated)) =
            some (some "taken", some 100)) :=
  ⟨⟨rfl, rfl⟩, ⟨rfl, rfl⟩⟩

/-- C2: refuted — two concurrent `TakeCandidates` calls with the same filters
can return overlapping (here: identical, non-disjoint) id sets.  Because each
call's Find and Mark are independent autocommit statements and the opened
transaction carries no statements, the schedule Find₁, Find₂, Mark₁, Mark₂ is
legal, and under it both calls return the same single eligible node id. -/
theorem C2_concurrent_take_overlap :
    (TakeCandidatesRace 100 10 3 3 "err" 1 [("a", freshNode)]).1 = ["a"]
    ∧ (TakeCandidatesRace 100 10 3 3 "err" 1 [("a", freshNode)]).2.1 = ["a"] :=
  ⟨rfl, rfl⟩

/-- C5: after `MarkTakenNodes [id]` at time `t`, the id is excluded from every
`FindCandidates` with the same `minUnusedDuration` queried before `t + dur`;
once more than `dur` has elapsed since the mark, the cooldown clause of the
WHERE condition accepts the marked row again. -/
theorem C5_mark_cooldown (st : Store) (id : NodeID) (t q dur : Int)
    (maxPingTries maxHandshakeTries : Nat) (transientHandshakeErr : String) (limit : Nat) :
    (q < t + dur →
      id ∉ FindCandidates q dur maxPingTries maxHandshakeTries transientHandshakeErr limit
        (MarkTakenNodes t [id] st))
    ∧ (t + dur < q →
      ∀ r, (id, r) ∈ MarkTakenNodes t [id] st → takenLastOK (q - dur) r.taken_last = true) := by
  constructor
  · intro hq hmem
    unfold FindCandidates FindCandidatesRows at hmem
    rw [List.mem_map] at hmem
    obtain ⟨e, he, hfst⟩ := hmem
    obtain ⟨hin, hp⟩ := mem_selectRows he
    obtain ⟨eid, er⟩ := e
    simp only at hfst hp
    subst hfst
    obtain ⟨r0, _, hr0⟩ := mem_updateNodes_key hin (List.mem_singleton.mpr rfl)
    have htaken : er.taken_last = some t := by rw [hr0]
    simp only [candidateOK, Bool.and_eq_true] at hp
    have hcool := hp.1.1.1
    rw [htaken] at hcool
    simp only [takenLastOK, decide_eq_true_eq] at hcool
    omega
  · intro hq r hmem
    obtain ⟨r0, _, hr0⟩ := mem_updateNodes_key hmem (List.mem_singleton.mpr rfl)
    have : r.taken_last = some t := by rw [hr0]
    rw [this]
    simp only [takenLastOK, decide_eq_true_eq]
    omega

theorem C5_mark_cooldown_witness :
    "a" ∉ FindCandidates 50 20 3 3 "err" 5 (MarkTakenNodes 40 ["a"] [("a", freshNode)])
    ∧ takenLastOK (100 - 20) taken40Node.taken_last = true :=
  ⟨(C5_mark_cooldown [("a", freshNode)] "a" 40 50 20 3 3 "err" 5).1 (by decide),
   (C5_mark_cooldown [("a", freshNode)] "a" 40 100 20 3 3 "err" 5).2
     (by decide) taken40Node (by decide)⟩

/-- C6: `UpdateClientID` sets `client_id`, clears `handshake_err`, resets
`handshake_try` to 0 and refreshes `handshake_updated`; consequently
`FindHandshakeLastTry` then reports no error, try count 0 and the refresh
time, whatever the previous counters were. -/
theorem C6_updateClientID_resets (st : Store) (id : NodeID) (r : NodeRecord) (now : Int)
    (clientID : String) (h : findRow id st = some r) :
    findRow id (UpdateClientID now id clientID st) =
      some { r with client_id := some clientID, handshake_err := none,
                    handshake_try := 0, handshake_updated := some now }
    ∧ FindHandshakeLastTry id (UpdateClientID now id clientID st) =
        some { hasErr := false, tries := 0, time := now } := by
  have h1 : findRow id (UpdateClientID now id clientID st) =
      some { r with client_id := some clientID, handshake_err := none,
                    handshake_try := 0, handshake_updated := some now } := by
    unfold UpdateClientID
    rw [findRow_updateNodes_self, h]
    rfl
  refine ⟨h1, ?_⟩
  unfold FindHandshakeLastTry
  rw [h1]
  rfl

theorem C6_updateClientID_resets_witness :
    FindHandshakeLastTry "a" (UpdateClientID 7 "a" "foo" [("a", prevTriedNode)]) =
      some { hasErr := false, tries := 0, time := 7 } :=
  (C6_updateClientID_resets [("a", prevTriedNode)] "a" prevTriedNode 7 "foo" rfl).2

/-- Helper for C9: each `UpdatePingError` increments the stored `ping_try` of
an existing row by exactly 1, so `N` iterations add `N`. -/
theorem ping_try_iterate (id : NodeID) (N : Nat) :
    ∀ (st : Store) (k : Nat), (findRow id st).map (fun r => r.ping_try) = some k →
      (findRow id ((UpdatePingError id)^[N] st)).map (fun r => r.ping_try) = some (k + N) := by
  induction N with
  | zero => intro st k h; simpa using h
  | succ n ih =>
    intro st k h
    rw [Function.iterate_succ_apply]
    have hstep : (findRow id (UpdatePingError id st)).map (fun r => r.ping_try) =
        some (k + 1) := by
      unfold UpdatePingError
      rw [findRow_updateNodes_self]
      cases hr : findRow id st with
      | none => rw [hr] at h; simp at h
      | some r0 =>
        rw [hr] at h
        simp at h ⊢
        omega
    have := ih (UpdatePingError id st) (k + 1) hstep
    rw [this]
    congr 1
    omega

/-- C9: `ResetPingError` is idempotent (stored `ping_try` is 0 after each of
two consecutive calls), and from a stored `ping_try` of 0, `N` calls of
`UpdatePingError` leave exactly `N`, each call adding exactly 1. -/
theorem C9_ping_counter (st : Store) (id : NodeID) (r : NodeRecord)
    (h : findRow id st = some r) (N : Nat) :
    (findRow id (ResetPingError id st)).map (fun r => r.ping_try) = some 0
    ∧ (findRow id (ResetPingError id (ResetPingError id st))).map
        (fun r => r.ping_try) = some 0
    ∧ ((findRow id st).map (fun r => r.ping_try) = some 0 →
        (findRow id ((UpdatePingError id)^[N] st)).map (fun r => r.ping_try) = some N) := by
  have h1 : findRow id (ResetPingError id st) = some { r with ping_try := 0 } := by
    unfold ResetPingError
    rw [findRow_updateNodes_self, h]
    rfl
  have h2 : findRow id (ResetPingError id (ResetPingError id st)) =
      some { r with ping_try := 0 } := by
    unfold ResetPingError at h1 ⊢
    rw [findRow_updateNodes_self, h1]
    rfl
  refine ⟨by rw [h1]; rfl, by rw [h2]; rfl, ?_⟩
  intro h0
  simpa using ping_try_iterate id N st 0 h0

theorem C9_ping_counter_witness :
    (findRow "a" (ResetPingError "a" [("a", ping5Node)])).map
        (fun r => r.ping_try) = some 0
    ∧ (findRow "a" ((UpdatePingError "a")^[3] [("a", freshNode)])).map
        (fun r => r.ping_try) = some 3 :=
  ⟨(C9_ping_counter [("a", ping5Node)] "a" ping5Node rfl 0).1,
   (C9_ping_counter [("a", freshNode)] "a" freshNode rfl 3).2.2 (by decide)⟩

/-- C10: on an id with no stored record, every mutating operation other than
`UpsertNodeAddr` leaves the store entirely unchanged (its UPDATE matches zero
rows, which is a success, not an error); only `UpsertNodeAddr` creates a
record. -/
theorem C10_missing_id_noop (st : Store) (id : NodeID) (h : findRow id st = none)
    (now : Int) (clientID handshakeErr : String) (isCompatFork : Bool)
    (keys : List (List Char)) (addr : NodeAddr) :
    ResetPingError id st = st
    ∧ UpdatePingError id st = st
    ∧ UpdateClientID now id clientID st = st
    ∧ UpdateHandshakeError now id handshakeErr st = st
    ∧ UpdateForkCompatibility now id isCompatFork st = st
    ∧ UpdateNeighborBucketKeys id keys st = st
    ∧ MarkTakenNodes now [id] st = st
    ∧ MarkTakenHandshakeCandidates now [id] st = st
    ∧ findRow id (UpsertNodeAddr now id addr st) = some (newNodeRecord now addr) := by
  refine ⟨updateNodes_of_notFound _ h, updateNodes_of_notFound _ h,
    updateNodes_of_notFound _ h, updateNodes_of_notFound _ h,
    updateNodes_of_notFound _ h, updateNodes_of_notFound _ h,
    updateNodes_of_notFound _ h, updateNodes_of_notFound _ h, ?_⟩
  unfold UpsertNodeAddr
  rw [h]
  simp only [Option.isSome_none, Bool.false_eq_true, if_false]
  rw [findRow_append_of_notFound _ h]
  simp [findRow]

theorem C10_missing_id_noop_witness :
    ResetPingError "b" [("a", freshNode)] = [("a", freshNode)]
    ∧ MarkTakenNodes 5 ["b"] [(("a" : NodeID), freshNode)] = [("a", freshNode)]
    ∧ findRow "b" (UpsertNodeAddr 5 "b" emptyAddr [("a", freshNode)]) =
        some (newNodeRecord 5 emptyAddr) :=
  ⟨(C10_missing_id_noop [("a", freshNode)] "b" (by decide) 5 "c" "e" true [] emptyAddr).1,
   (C10_missing_id_noop [("a", freshNode)] "b" (by decide) 5 "c" "e" true []
      emptyAddr).2.2.2.2.2.2.1,
   (C10_missing_id_noop [("a", freshNode)] "b" (by decide) 5 "c" "e" true []
      emptyAddr).2.2.2.2.2.2.2.2⟩

theorem handshakeCandidateOK_eq_decide (now minOK minErr : Int) (maxTries : Nat)
    (terr : String) (r : NodeRecord) :
    handshakeCandidateOK (now - minOK) (now - minErr) maxTries terr r =
      decide (handshakeEligibleSpec now minOK minErr maxTries terr r) := by
  by_cases hs : handshakeEligibleSpec now minOK minErr maxTries terr r
  · rw [(handshakeCandidateOK_iff now minOK minErr maxTries terr r).mpr hs]
    simp [hs]
  · have h2 : handshakeCandidateOK (now - minOK) (now - minErr) maxTries terr r = false := by
      rw [Bool.eq_false_iff]
      intro hh
      exact hs ((handshakeCandidateOK_iff now minOK minErr maxTries terr r).mp hh)
    rw [h2]
    simp [hs]

/-- `hsTryInv` is pointwise-preserved by any `updateNodes` whose row function
preserves it. -/
theorem hsTryInv_updateNodes {st : Store} (ids : List NodeID) (f : NodeRecord → NodeRecord)
    (hf : ∀ r : NodeRecord, (r.handshake_updated = none → r.handshake_try = 0) →
      ((f r).handshake_updated = none → (f r).handshake_try = 0))
    (h : hsTryInv st) : hsTryInv (updateNodes ids f st) := by
  intro e he
  obtain ⟨e0, he0, hval⟩ := mem_updateNodes he
  by_cases hin : e0.1 ∈ ids
  · rw [hval, if_pos hin]
    exact hf e0.2 (h e0 he0)
  · rw [hval, if_neg hin]
    exact h e0 he0

/-- Every operation of the store preserves `hsTryInv` (and the empty store
satisfies it), so the invariant holds of every store the system can build. -/
theorem hsTryInv_preserved (st : Store) (h : hsTryInv st) (now : Int) (id : NodeID)
    (ids : List NodeID) (addr : NodeAddr) (clientID handshakeErr : String) (b : Bool)
    (keys : List (List Char)) :
    hsTryInv (UpsertNodeAddr now id addr st)
    ∧ hsTryInv (ResetPingError id st)
    ∧ hsTryInv (UpdatePingError id st)
    ∧ hsTryInv (UpdateClientID now id clientID st)
    ∧ hsTryInv (UpdateHandshakeError now id handshakeErr st)
    ∧ hsTryInv (UpdateForkCompatibility now id b st)
    ∧ hsTryInv (UpdateNeighborBucketKeys id keys st)
    ∧ hsTryInv (MarkTakenNodes now ids st)
    ∧ hsTryInv (MarkTakenHandshakeCandidates now ids st)
    ∧ hsTryInv [] := by
  refine ⟨?_, ?_, ?_, ?_, ?_, ?_, ?_, ?_, ?_, ?_⟩
  · unfold UpsertNodeAddr
    by_cases hf : (findRow id st).isSome
    · rw [if_pos hf]
      exact hsTryInv_updateNodes _ _ (fun r hr => by simp [setNodeAddr]; exact hr) h
    · rw [if_neg hf]
      intro e he
      rcases List.mem_append.mp he with he | he
      · exact h e he
      · rw [List.mem_singleton.mp he]
        intro _
        rfl
  · exact hsTryInv_updateNodes _ _ (fun r hr => by simp; exact hr) h
  · exact hsTryInv_updateNodes _ _ (fun r hr => by simp; exact hr) h
  · exact hsTryInv_updateNodes _ _ (fun r hr => by simp) h
  · exact hsTryInv_updateNodes _ _ (fun r hr => by simp) h
  · exact hsTryInv_updateNodes _ _ (fun r hr => by simp; exact hr) h
  · exact hsTryInv_updateNodes _ _ (fun r hr => by simp; exact hr) h
  · exact hsTryInv_updateNodes _ _ (fun r hr => by simp; exact hr) h
  · exact hsTryInv_updateNodes _ _ (fun r hr => by simp) h
  · intro e he
    simp at he

/-- C3: `FindHandshakeCandidates` returns exactly the rows satisfying the
spec's three-clause eligibility conjunction, ordered by `handshake_updated`
ascending with NULLs first, capped at `limit`.  In particular (under the store
invariant `hsTryInv`, which every operation preserves) a never-attempted row
with acceptable fork compatibility appears regardless of the thresholds, and a
row carrying the transient error tag appears although its try count exceeds
`maxHandshakeTries` by 100. -/
theorem C3_findHandshakeCandidates_correct (now minOK minErr : Int) (maxTries : Nat)
    (transientErr : String) (limit : Nat) (st : Store) :
    (FindHandshakeCandidates now minOK minErr maxTries transientErr limit st
      = ((List.insertionSort (rowLe (fun r => r.handshake_updated))
            (st.filter (fun e =>
              decide (handshakeEligibleSpec now minOK minErr maxTries transientErr
                e.2)))).take limit).map Prod.fst)
    ∧ (FindHandshakeCandidates now minOK minErr maxTries transientErr limit st).length ≤ limit
    ∧ List.Sorted (rowLe (fun r => r.handshake_updated))
        (FindHandshakeCandidatesRows now minOK minErr maxTries transientErr limit st)
    ∧ (st.length ≤ limit →
        ∀ e : NodeID × NodeRecord,
          e ∈ FindHandshakeCandidatesRows now minOK minErr maxTries transientErr limit st ↔
            e ∈ st ∧ handshakeEligibleSpec now minOK minErr maxTries transientErr e.2)
    ∧ (hsTryInv st →
        ∀ id r, (id, r) ∈ st → r.handshake_updated = none → r.compat_fork ≠ some false →
          st.length ≤ limit →
          id ∈ FindHandshakeCandidates now minOK minErr maxTries transientErr limit st)
    ∧ (∀ id r, (id, r) ∈ st → r.handshake_err = some transientErr →
          r.handshake_try = maxTries + 100 → r.compat_fork ≠ some false →
          olderThan now minErr r.handshake_updated →
          st.length ≤ limit →
          id ∈ FindHandshakeCandidates now minOK minErr maxTries transientErr limit st) := by
  have hfilter : st.filter (fun e =>
      handshakeCandidateOK (now - minOK) (now - minErr) maxTries transientErr e.2) =
      st.filter (fun e =>
        decide (handshakeEligibleSpec now minOK minErr maxTries transientErr e.2)) := by
    apply List.filter_congr
    intro e _
    exact handshakeCandidateOK_eq_decide now minOK minErr maxTries transientErr e.2
  have hmember : ∀ (hlim : st.length ≤ limit) (e : NodeID × NodeRecord),
      e ∈ FindHandshakeCandidatesRows now minOK minErr maxTries transientErr limit st ↔
        e ∈ st ∧ handshakeEligibleSpec now minOK minErr maxTries transientErr e.2 := by
    intro hlim e
    unfold FindHandshakeCandidatesRows
    rw [mem_selectRows_iff hlim e, handshakeCandidateOK_eq_decide, decide_eq_true_eq]
  refine ⟨?_, ?_, sorted_selectRows _ _ _ _, hmember, ?_, ?_⟩
  · unfold FindHandshakeCandidates FindHandshakeCandidatesRows selectRows
    rw [hfilter]
  · unfold FindHandshakeCandidates
    rw [List.length_map]
    exact length_selectRows_le _ _ _ _
  · intro hinv id r hmem hupd hcompat hlim
    unfold FindHandshakeCandidates
    rw [List.mem_map]
    refine ⟨(id, r), (hmember hlim (id, r)).mpr ⟨hmem, ?_⟩, rfl⟩
    refine ⟨Or.inl hupd, ?_, Or.inl ?_⟩
    · rcases hc : r.compat_fork with _ | b
      · exact Or.inr rfl
      · cases b
        · exact absurd hc hcompat
        · exact Or.inl rfl
    · rw [hinv (id, r) hmem hupd]
      exact Nat.zero_le _
  · intro id r hmem herr htry hcompat hold hlim
    unfold FindHandshakeCandidates
    rw [List.mem_map]
    refine ⟨(id, r), (hmember hlim (id, r)).mpr ⟨hmem, ?_⟩, rfl⟩
    refine ⟨Or.inr (Or.inr ⟨by rw [herr]; exact Option.some_ne_none _, hold⟩), ?_,
      Or.inr herr⟩
    rcases hc : r.compat_fork with _ | b
    · exact Or.inr rfl
    · cases b
      · exact absurd hc hcompat
      · exact Or.inl rfl

/-- A node that failed its last handshake at time 1 with the transient tag
and a try count far beyond any cap. -/
def transientNode : NodeRecord :=
  { freshNode with
    handshake_err := some "e"
    handshake_try := 100
    handshake_updated := some 1 }

theorem C3_findHandshakeCandidates_correct_witness :
    "a" ∈ FindHandshakeCandidates 100 10 5 0 "e" 1 [("a", freshNode)]
    ∧ "b" ∈ FindHandshakeCandidates 100 10 5 0 "e" 1 [("b", transientNode)] :=
  ⟨(C3_findHandshakeCandidates_correct 100 10 5 0 "e" 1 [("a", freshNode)]).2.2.2.2.1
      (by decide) "a" freshNode (by decide) rfl (by decide) (by decide),
   (C3_findHandshakeCandidates_correct 100 10 5 0 "e" 1 [("b", transientNode)]).2.2.2.2.2
      "b" transientNode (by decide) rfl rfl (by decide) (by decide) (by decide)⟩

/-- Distinct rows of a store with no duplicate ids never share an id. -/
theorem nodup_key_unique {st : Store} (hnd : (st.map Prod.fst).Nodup)
    {id : NodeID} {r r' : NodeRecord} (h1 : (id, r) ∈ st) (h2 : (id, r') ∈ st) : r = r' := by
  induction st with
  | nil => simp at h1
  | cons e t ih =>
    rw [List.map_cons, List.nodup_cons] at hnd
    rcases List.mem_cons.mp h1 with h1 | h1 <;> rcases List.mem_cons.mp h2 with h2 | h2
    · rw [← h1] at h2
      exact (congrArg Prod.snd h2).symm
    · exfalso
      apply hnd.1
      rw [← h1]
      exact List.mem_map.mpr ⟨(id, r'), h2, rfl⟩
    · exfalso
      apply hnd.1
      rw [← h2]
      exact List.mem_map.mpr ⟨(id, r), h1, rfl⟩
    · exact ih hnd.2 h1 h2

/-- C4: a stored record with incompatible `fork_compat` (`compat_fork = some
false`, as written by `UpdateForkCompatibility(id, false)`) never appears in
the output of either candidate query, for every choice of parameters. -/
theorem C4_incompatible_never_candidate (st : Store) (id : NodeID) (r : NodeRecord)
    (hnd : (st.map Prod.fst).Nodup) (hmem : (id, r) ∈ st) (hinc : r.compat_fork = some false)
    (now minOK minErr minUnused : Int) (maxTries maxPing maxHs : Nat)
    (transientErr transientHandshakeErr : String) (limit limit2 : Nat) :
    id ∉ FindHandshakeCandidates now minOK minErr maxTries transientErr limit st
    ∧ id ∉ FindCandidates now minUnused maxPing maxHs transientHandshakeErr limit2 st := by
  constructor
  · intro hbad
    unfold FindHandshakeCandidates FindHandshakeCandidatesRows at hbad
    rw [List.mem_map] at hbad
    obtain ⟨e, he, hfst⟩ := hbad
    obtain ⟨hin, hp⟩ := mem_selectRows he
    obtain ⟨eid, er⟩ := e
    simp only at hfst hp
    subst hfst
    rw [nodup_key_unique hnd hin hmem] at hp
    simp [handshakeCandidateOK, compatForkOK, hinc] at hp
  · intro hbad
    unfold FindCandidates FindCandidatesRows at hbad
    rw [List.mem_map] at hbad
    obtain ⟨e, he, hfst⟩ := hbad
    obtain ⟨hin, hp⟩ := mem_selectRows he
    obtain ⟨eid, er⟩ := e
    simp only at hfst hp
    subst hfst
    rw [nodup_key_unique hnd hin hmem] at hp
    simp [candidateOK, compatForkOK, hinc] at hp

/-- A node marked fork-incompatible. -/
def incompatNode : NodeRecord :=
  { freshNode with compat_fork := some false }

theorem C4_incompatible_never_candidate_witness :
    "a" ∉ FindHandshakeCandidates 100 10 5 3 "e" 5 [("a", incompatNode)]
    ∧ "a" ∉ FindCandidates 100 10 3 3 "err" 5 [("a", incompatNode)] :=
  C4_incompatible_never_candidate [("a", incompatNode)] "a" incompatNode
    (by decide) (by decide) rfl 100 10 5 100 3 3 3 "e" "err" 5 5

theorem storedPort_getD (p : Bool) (n : Nat) :
    (storedPort p n).getD 0 = if p then n else 0 := by
  cases p <;> by_cases h : n = 0 <;> simp [storedPort, h]

theorem extractAddr_setNodeAddr (now : Int) (addr : NodeAddr) (r : NodeRecord) :
    extractAddr (setNodeAddr now addr r) = normalizeAddr addr := by
  unfold extractAddr setNodeAddr normalizeAddr normalizePorts
  simp [storedPort_getD]

/-- C7: round trip of the address store — after an upsert, `FindNodeAddr`
returns the upserted address with the ports of an IP-less stack normalized to
absent (`0`); ports whose IP is present round-trip exactly (a zero port is
stored as NULL and read back as 0). -/
theorem C7_addr_roundtrip (now : Int) (id : NodeID) (addr : NodeAddr) (st : Store) :
    FindNodeAddr id (UpsertNodeAddr now id addr st) = some (normalizeAddr addr) := by
  unfold FindNodeAddr UpsertNodeAddr
  by_cases h : (findRow id st).isSome
  · rw [if_pos h]
    rw [findRow_updateNodes_self]
    obtain ⟨r, hr⟩ := Option.isSome_iff_exists.mp h
    rw [hr]
    simp [extractAddr_setNodeAddr]
  · rw [if_neg h]
    rw [findRow_append_of_notFound _ (Option.not_isSome_iff_eq_none.mp h)]
    simp [findRow, newNodeRecord, extractAddr_setNodeAddr]

/-- C8 counterexample: the round trip fails at the empty key list.  The
update stores `strings.Join([], ",") = ""`, and `strings.Split("", ",")`
yields `[""]` — one empty key — not the stored empty list. -/
theorem C8_counterexample :
    FindNeighborBucketKeys "a" (UpdateNeighborBucketKeys "a" [] [("a", freshNode)]) =
      some [[]]
    ∧ FindNeighborBucketKeys "a" (UpdateNeighborBucketKeys "a" [] [("a", freshNode)]) ≠
      some [] := by
  constructor <;> decide

/-- C8 (amended): for an existing record and a NON-EMPTY key list whose keys
contain no `','` separator character, the round trip is exact; and
`FindNeighborBucketKeys` is absent when the keys were never set or the record
is missing. -/
theorem C8_neighbor_keys_roundtrip (st : Store) (id : NodeID) (r : NodeRecord)
    (keys : List (List Char)) (hex : findRow id st = some r) (hne : keys ≠ [])
    (hcomma : ∀ k ∈ keys, ',' ∉ k) :
    FindNeighborBucketKeys id (UpdateNeighborBucketKeys id keys st) = some keys
    ∧ (∀ id2 : NodeID, ∀ st2 : Store, findRow id2 st2 = none →
        FindNeighborBucketKeys id2 st2 = none)
    ∧ (∀ (id2 : NodeID) (st2 : Store) (r2 : NodeRecord), findRow id2 st2 = some r2 →
        r2.neighbor_keys = none → FindNeighborBucketKeys id2 st2 = none) := by
  refine ⟨?_, ?_, ?_⟩
  · unfold FindNeighborBucketKeys UpdateNeighborBucketKeys
    rw [findRow_updateNodes_self, hex]
    simp
    exact List.splitOn_intercalate keys ',' hcomma hne
  · intro id2 st2 h2
    unfold FindNeighborBucketKeys
    rw [h2]
    rfl
  · intro id2 st2 r2 h2 hn
    unfold FindNeighborBucketKeys
    rw [h2]
    simp [hn]

theorem C8_neighbor_keys_roundtrip_witness :
    FindNeighborBucketKeys "a"
        (UpdateNeighborBucketKeys "a" [['x'], ['y']] [("a", freshNode)]) =
      some [['x'], ['y']] :=
  (C8_neighbor_keys_roundtrip [("a", freshNode)] "a" freshNode [['x'], ['y']]
    rfl (by decide) (by decide)).1

end Observer
